import Mathlib

/-!
Verification of the HTTP transport layer of the jsonrpsee HTTP client
(`client/http-client/src/transport.rs`).

Rust strings are embedded as `List Char`; byte lengths are computed with an
explicit UTF-8 size function.  Behaviour of the external crates that the
transport calls into (`url` for parsing the configured target, the `http`
crate for header values and request URIs, and the hyper-based pipeline) is
modelled by explicit Lean definitions documented at their declaration; the
network/pipeline is an oracle mapping each issued request exchange to its
outcome.
-/

set_option autoImplicit false

deriving instance DecidableEq for Except

namespace Transport

/-- Characters of a Rust `String` value. -/
abbrev Chars := List Char

/-- UTF-8 byte size of one character, modelling Rust `char` encoding. -/
def charUtf8Size (c : Char) : Nat :=
  if c.toNat < 0x80 then 1
  else if c.toNat < 0x800 then 2
  else if c.toNat < 0x10000 then 3
  else 4

/-- Byte length of a string (`String::len` in Rust counts UTF-8 bytes). -/
def utf8Len (s : Chars) : Nat :=
  s.foldl (fun n c => n + charUtf8Size c) 0

/-- Bytes of an ASCII string, used to write concrete header values. -/
def bytesOf (s : String) : List Nat := s.data.map Char.toNat

/-- Error that can happen during a request
(`enum Error` in `transport.rs`).  The boxed engine error carried by the
`Http` variant is opaque to this layer and is abstracted away. -/
inductive Error where
  | Url (msg : Chars)
  | Http
  | RequestFailure (status_code : Nat)
  | RequestTooLarge
  | Malformed
  | InvalidCertficateStore
  | TooManyRedirects
deriving DecidableEq, Repr

/-- The `jsonrpsee_core::error::GenericTransportError` variants used by the
body reader, as consumed by the `From` impl in `transport.rs`. -/
inductive GenericTransportError where
  | TooLarge
  | Malformed
  | Inner
deriving DecidableEq, Repr

/-- The `From<GenericTransportError> for Error` conversion in `transport.rs`. -/
def Error.fromGeneric : GenericTransportError → Error
  | .TooLarge => .RequestTooLarge
  | .Malformed => .Malformed
  | .Inner => .Http

/-- Modelled from the `http` crate: `StatusCode::is_redirection` (3xx). -/
def isRedirection (s : Nat) : Bool := decide (300 ≤ s ∧ s < 400)

/-- Modelled from the `http` crate: `StatusCode::is_success` (2xx). -/
def isSuccess (s : Nat) : Bool := decide (200 ≤ s ∧ s < 300)

/-- Modelled from the `http` crate: a byte that `HeaderValue::to_str`
accepts (visible ASCII, space, or horizontal tab). -/
def isVisibleAsciiByte (b : Nat) : Bool := decide ((32 ≤ b ∧ b < 127) ∨ b = 9)

/-- Modelled from the `http` crate: `HeaderValue::to_str`, which succeeds
exactly when every byte is visible ASCII (incl. space/tab) and then yields
the corresponding character string. -/
def headerValueToStr (bs : List Nat) : Option Chars :=
  if bs.all isVisibleAsciiByte then some (bs.map Char.ofNat) else none

/-- Outcome of reading a response body, as far as this layer observes it:
either the materialized bytes, or a structurally malformed stream. -/
inductive BodyModel where
  | bytes (content : List Nat)
  | malformed
deriving DecidableEq, Repr

/-- One HTTP response as classified by the send loop: its status code, the
value of its first `Location` header if present (raw bytes), and its body. -/
structure Response where
  status : Nat
  location : Option (List Nat)
  body : BodyModel
deriving DecidableEq, Repr

/-- The request pipeline / network oracle: the outcome of the `i`-th request
exchange issued by one send call (readiness wait plus execution, either of
which can fail with an `Error`). -/
abbrev Net := Nat → Except Error Response

/-- One header entry: wire name (lowercase, as `HeaderName` normalizes) and
value. -/
abbrev HPair := Chars × Chars

/-- Modelled from the `http` crate: `HeaderMap::insert`.  An existing key
keeps its position in wire order and only its value is replaced; a new key
is appended at the end. -/
def hmInsert (m : List HPair) (k v : Chars) : List HPair :=
  match m with
  | [] => [(k, v)]
  | (k', v') :: rest =>
    if k' = k then (k', v) :: rest else (k', v') :: hmInsert rest k v

/-- Lookup of the value stored at a key in the header map model. -/
def hmLookup (m : List HPair) (k : Chars) : Option Chars :=
  match m with
  | [] => none
  | (k', v') :: rest => if k' = k then some v' else hmLookup rest k

def ctName : Chars := "content-type".data

def acceptName : Chars := "accept".data

def jsonVal : Chars := "application/json".data

/-- Header cache built by `HttpTransportClient::new`: the two defaults
(content-type and accept, both `application/json`) inserted first, then the
caller-supplied headers inserted in their given order. -/
def cachedHeaders (user : List HPair) : List HPair :=
  user.foldl (fun m kv => hmInsert m kv.1 kv.2)
    (hmInsert (hmInsert [] ctName jsonVal) acceptName jsonVal)

/-- Split a list at the first occurrence of `sep`: the part before it, and
the part after it (`none` when `sep` does not occur). -/
def splitFirst (sep : Char) : Chars → Chars × Option Chars
  | [] => ([], none)
  | c :: cs =>
    if c = sep then ([], some cs)
    else
      let r := splitFirst sep cs
      (c :: r.1, r.2)

def isAlphaCh (c : Char) : Bool := decide (('a' ≤ c ∧ c ≤ 'z') ∨ ('A' ≤ c ∧ c ≤ 'Z'))

def isDigitCh (c : Char) : Bool := decide ('0' ≤ c ∧ c ≤ '9')

def isSchemeCh (c : Char) : Bool := isAlphaCh c || isDigitCh c || decide (c = '+' ∨ c = '-' ∨ c = '.')

def digitsToNat (l : Chars) : Nat :=
  l.foldl (fun n c => n * 10 + (c.toNat - 48)) 0

/-- Port component parser of the URL model: empty port is allowed and means
no port; otherwise all characters must be digits and the value must fit in
16 bits, else the whole URL fails to parse. -/
def parsePort (s : Chars) : Option (Option Nat) :=
  if s.isEmpty then some none
  else if s.all isDigitCh ∧ digitsToNat s ≤ 65535 then some (some (digitsToNat s))
  else none

/-- Default port of the special schemes recognised by the URL model. -/
def defaultPort (sch : Chars) : Option Nat :=
  if sch = "http".data then some 80
  else if sch = "https".data then some 443
  else if sch = "ws".data then some 80
  else if sch = "wss".data then some 443
  else if sch = "ftp".data then some 21
  else none

def isSpecialScheme (sch : Chars) : Bool :=
  decide (sch = "http".data ∨ sch = "https".data ∨ sch = "ws".data ∨
    sch = "wss".data ∨ sch = "ftp".data ∨ sch = "file".data)

/-- Parsed URL record mirroring the observable components of `url::Url`
used by the transport: scheme, host, non-default port, serialized path,
query and fragment. -/
structure Url where
  scheme : Chars
  host : Option Chars
  port : Option Nat
  path : Chars
  query : Option Chars
  fragment : Option Chars
deriving DecidableEq, Repr

/-- Modelled from the `url` crate (WHATWG URL): a restricted parser for
hierarchical `scheme://host:port/path?query#fragment` references.  The
scheme must start with a letter and is lowercased; a hierarchical reference
requires the `//` separator and, for the special schemes, a non-empty host;
the default port is dropped; an empty path of a special-scheme URL becomes
`/`; a reference without `//` parses with no host (cannot-be-a-base).
Userinfo, IPv6 host brackets, percent-encoding normalization and host
case-folding are outside the modelled fragment. -/
def Url.parse (s : Chars) : Option Url :=
  match splitFirst ':' s with
  | (_, none) => none
  | (schemeRaw, some rest) =>
    match schemeRaw with
    | [] => none
    | c0 :: _ =>
      if isAlphaCh c0 ∧ schemeRaw.all isSchemeCh then
        let scheme := schemeRaw.map Char.toLower
        let fr := splitFirst '#' rest
        if fr.1.take 2 = "//".data then
          let after := fr.1.drop 2
          let auth := after.takeWhile (fun c => decide (c ≠ '/' ∧ c ≠ '?'))
          let pq := after.drop auth.length
          let hp := splitFirst ':' auth
          match (match hp.2 with | none => some none | some p => parsePort p) with
          | none => none
          | some port0 =>
            if isSpecialScheme scheme ∧ hp.1 = [] then none
            else
              let port := if port0 = defaultPort scheme then none else port0
              let pv := splitFirst '?' pq
              let path := if pv.1 = [] ∧ isSpecialScheme scheme then "/".data else pv.1
              some ⟨scheme, some hp.1, port, path, pv.2, fr.2⟩
        else
          let pv := splitFirst '?' fr.1
          some ⟨scheme, none, none, pv.1, pv.2, fr.2⟩
      else none

/-- Serialization of the URL model, mirroring `url::Url::as_str` on the
modelled fragment: scheme, `//host` with any non-default port, path, query
and fragment. -/
def Url.asStr (u : Url) : Chars :=
  u.scheme ++ ":".data ++
    (match u.host with
     | some h =>
       "//".data ++ h ++
         (match u.port with
          | some p => ":".data ++ (toString p).data
          | none => [])
     | none => []) ++
    u.path ++
    (match u.query with
     | some q => "?".data ++ q
     | none => []) ++
    (match u.fragment with
     | some f => "#".data ++ f
     | none => [])

/-- The `jsonrpsee_core::client::CertificateStore` selector. -/
inductive CertificateStore where
  | Native
  | WebPki
deriving DecidableEq, Repr

/-- Cargo feature flags governing the conditionally-compiled TLS code in
`transport.rs`: `__tls`, `native-tls` and `webpki-tls`. -/
structure Cfg where
  tls : Bool
  nativeTls : Bool
  webpkiTls : Bool
deriving DecidableEq, Repr

/-- Wrapper over HTTP transport and connector (`enum HttpBackend`): plain
hyper client, or the TLS-capable client recording the chosen trust-anchor
policy. -/
inductive HttpBackend where
  | Http
  | Https (store : CertificateStore)
deriving DecidableEq, Repr

/-- HTTP Transport Client (`struct HttpTransportClient`).  The `client`
service field is represented by the selected backend; the pipeline itself
is supplied per call as the `Net` oracle. -/
structure HttpTransportClient where
  target : Chars
  backend : HttpBackend
  maxRequestSize : Nat
  maxResponseSize : Nat
  maxLogLength : Nat
  headers : List HPair
  httpOnly : Bool
deriving DecidableEq, Repr

/-- Scheme-mismatch error message of `new` (apostrophes of the original
message elided). -/
def schemeErrMsg (cfg : Cfg) : Chars :=
  if cfg.tls then "URL scheme not supported, expects http or https".data
  else "URL scheme not supported, expects http".data

/-- Backend selection of `HttpTransportClient::new`: `http` gives the plain
backend; `https` (when the TLS feature is compiled in) consults the
certificate store, failing with `InvalidCertficateStore` when the requested
policy's feature is absent; every other scheme (including `https` without
the TLS feature) fails with `Url`. -/
def selectBackend (cfg : Cfg) (scheme : Chars) (cert_store : CertificateStore) :
    Except Error HttpBackend :=
  if scheme = "http".data then .ok .Http
  else if scheme = "https".data then
    if cfg.tls then
      match cert_store with
      | .Native =>
        if cfg.nativeTls then .ok (.Https .Native) else .error .InvalidCertficateStore
      | .WebPki =>
        if cfg.webpkiTls then .ok (.Https .WebPki) else .error .InvalidCertficateStore
    else .error (.Url (schemeErrMsg cfg))
  else .error (.Url (schemeErrMsg cfg))

/-- Initializes a new HTTP client (`HttpTransportClient::new`): parse the
target, require a host, strip the fragment, select the backend from the
scheme, build the cached header set, and store the canonical target
string. -/
def new (cfg : Cfg) (max_request_size : Nat) (target : Chars) (max_response_size : Nat)
    (cert_store : CertificateStore) (max_log_length : Nat) (headers : List HPair)
    (http_only : Bool) : Except Error HttpTransportClient :=
  match Url.parse target with
  | none => .error (.Url "Invalid URL".data)
  | some url0 =>
    if url0.host = none then .error (.Url "Invalid host".data)
    else
      let url : Url := { url0 with fragment := none }
      match selectBackend cfg url.scheme cert_store with
      | .error e => .error e
      | .ok backend =>
        .ok
          { target := Url.asStr url
            backend := backend
            maxRequestSize := max_request_size
            maxResponseSize := max_response_size
            maxLogLength := max_log_length
            headers := cachedHeaders headers
            httpOnly := http_only }

/-- Modelled from the `http` crate: characters allowed in a request URI. -/
def isUriChar (c : Char) : Bool :=
  decide (33 ≤ c.toNat ∧ c.toNat ≤ 126 ∧ c.toNat ≠ 34 ∧ c.toNat ≠ 60 ∧
    c.toNat ≠ 62 ∧ c.toNat ≠ 92 ∧ c.toNat ≠ 94 ∧ c.toNat ≠ 96 ∧
    c.toNat ≠ 123 ∧ c.toNat ≠ 124 ∧ c.toNat ≠ 125)

/-- Absolute-form request target: scheme, `://`, non-empty authority. -/
def hasAbsoluteForm (s : Chars) : Bool :=
  match splitFirst ':' s with
  | (_, none) => false
  | (sch, some rest) =>
    match sch with
    | [] => false
    | c0 :: _ =>
      isAlphaCh c0 && sch.all isSchemeCh && decide (rest.take 2 = "//".data) &&
        !((rest.drop 2).takeWhile (fun c => decide (c ≠ '/' ∧ c ≠ '?'))).isEmpty

/-- Modelled from the `http` crate: validity of a string as a request
`Uri` (`hyper::Request::post` parses its argument with `TryFrom<Uri>`).
Restricted model: the string must be non-empty, contain only URI
characters, and be the asterisk form, an origin form starting with `/`, or
an absolute form with scheme and authority. -/
def uriValid (s : Chars) : Bool :=
  !s.isEmpty && s.all isUriChar &&
    (decide (s = ['*']) || decide (s.head? = some '/') || hasAbsoluteForm s)

/-- Rust `str::strip_prefix` specialised to the `"https://"` literal used
by the send loop. -/
def stripHttps (t : Chars) : Option Chars :=
  if "https://".data.isPrefixOf t then some (t.drop "https://".data.length) else none

/-- The force-downgrade rewrite at the top of every loop iteration of
`inner_send`: when `http_only` is set and the current target starts with
`https://`, that prefix is replaced by `http://`. -/
def downgrade (http_only : Bool) (t : Chars) : Chars :=
  if http_only then
    match stripHttps t with
    | some s => "http://".data ++ s
    | none => t
  else t

/-- One outgoing HTTP POST request as built by the send loop: target, the
cloned cached header set, and a fresh copy of the body. -/
structure Req where
  target : Chars
  headers : List HPair
  body : Chars
deriving DecidableEq, Repr

/-- Result of a send-side computation: success, one of the taxonomy errors,
or a Rust panic (an `expect` failure). -/
inductive SendResult (α : Type) where
  | ok (val : α)
  | err (e : Error)
  | panic (msg : Chars)
deriving DecidableEq, Repr

def panicMsg : Chars := "URI and request headers are valid; qed".data

def redirectUrlErrMsg : Chars := "Invalid redirect URL: invalid header value".data

/-- The redirect-following loop of `HttpTransportClient::inner_send`,
parameterised by the remaining iteration budget (initially 32), the current
cursor target and the index of the next pipeline exchange.  Returns the
final outcome together with the transcript of issued requests.  Building
the POST request panics (the `expect` in the source) when the cursor target
is not a valid request URI; otherwise the pipeline oracle decides the
exchange, and the response is classified exactly as in the source: a 3xx
response with a `Location` header continues the loop at that verbatim
location (failing with `Url` when the header value is not valid text), a
2xx response succeeds, and anything else fails with `RequestFailure`. -/
def sendLoop (c : HttpTransportClient) (net : Net) (body : Chars) :
    Nat → Chars → Nat → SendResult Response × List Req
  | 0, _, _ => (.err .TooManyRedirects, [])
  | fuel + 1, target0, k =>
    let target := downgrade c.httpOnly target0
    if uriValid target then
      let req : Req := ⟨target, c.headers, body⟩
      match net k with
      | .error e => (.err e, [req])
      | .ok resp =>
        match (if isRedirection resp.status then resp.location else none) with
        | some bs =>
          match headerValueToStr bs with
          | some loc =>
            let r := sendLoop c net body fuel loc (k + 1)
            (r.1, req :: r.2)
          | none => (.err (.Url redirectUrlErrMsg), [req])
        | none =>
          if isSuccess resp.status then (.ok resp, [req])
          else (.err (.RequestFailure resp.status), [req])
    else (.panic panicMsg, [])

/-- `HttpTransportClient::inner_send`: log the body (no observable effect),
fail fast with `RequestTooLarge` when the body's byte length exceeds the
request-size limit, and otherwise run the redirect loop for at most 32
attempts starting from the client's canonical target. -/
def inner_send (c : HttpTransportClient) (net : Net) (body : Chars) :
    SendResult Response × List Req :=
  if utf8Len body > c.maxRequestSize then (.err .RequestTooLarge, [])
  else sendLoop c net body 32 c.target 0

/-- Modelled from the spec: `jsonrpsee_core::http_helpers::read_body` (the
Body Reader), whose source is outside the provided tree.  It streams the
response body under the response-size limit: exceeding the limit fails with
the too-large kind and a structurally malformed body fails with
`Malformed`; otherwise the materialized bytes are returned. -/
def read_body (b : BodyModel) (maxResponseSize : Nat) :
    Except GenericTransportError (List Nat) :=
  match b with
  | .malformed => .error .Malformed
  | .bytes content =>
    if content.length > maxResponseSize then .error .TooLarge else .ok content

/-- `HttpTransportClient::send_and_read_body`: run `inner_send`, then read
the response body under `max_response_size`, converting reader errors
through `From<GenericTransportError>`. -/
def send_and_read_body (c : HttpTransportClient) (net : Net) (body : Chars) :
    SendResult (List Nat) × List Req :=
  let r := inner_send c net body
  (match r.1 with
   | .ok resp =>
     match read_body resp.body c.maxResponseSize with
     | .ok bs => .ok bs
     | .error e => .err (Error.fromGeneric e)
   | .err e => .err e
   | .panic m => .panic m,
   r.2)

/-- `HttpTransportClient::send`: run `inner_send` and discard the response
without reading its body. -/
def send (c : HttpTransportClient) (net : Net) (body : Chars) :
    SendResult Unit × List Req :=
  let r := inner_send c net body
  (match r.1 with
   | .ok _ => .ok ()
   | .err e => .err e
   | .panic m => .panic m,
   r.2)

/-- Predicate on one pipeline outcome: a response that the loop will follow
as a redirect, whose `Location` value is valid text and (after the optional
forced downgrade) a valid request URI. -/
def redirectValid (ho : Bool) : Except Error Response → Bool
  | .error _ => false
  | .ok r =>
    isRedirection r.status &&
      (match r.location with
       | none => false
       | some bs =>
         match headerValueToStr bs with
         | none => false
         | some s => uriValid (downgrade ho s))

/-- Call-local state of one in-flight `inner_send` invocation: the redirect
cursor (current target and remaining attempt budget), the index of the next
pipeline exchange, the issued-request transcript, and the final outcome
once the loop has terminated.  This is exactly the state held in local
variables of `inner_send`; none of it lives on the client. -/
structure CallState where
  target : Chars
  rem : Nat
  k : Nat
  reqs : List Req
  outcome : Option (SendResult Response)
deriving DecidableEq, Repr

/-- One loop iteration of `inner_send` as a step function, threading the
(immutably borrowed) client through so that the frame property -- a send
step never changes any client field -- is expressible.  A finished call is
a no-op. -/
def loopIter (c : HttpTransportClient) (net : Net) (body : Chars) (st : CallState) :
    HttpTransportClient × CallState :=
  match st.outcome with
  | some _ => (c, st)
  | none =>
    match st.rem with
    | 0 => (c, { st with outcome := some (.err .TooManyRedirects) })
    | rem' + 1 =>
      let target := downgrade c.httpOnly st.target
      if uriValid target then
        let req : Req := ⟨target, c.headers, body⟩
        match net st.k with
        | .error e => (c, { st with reqs := st.reqs ++ [req], outcome := some (.err e) })
        | .ok resp =>
          match (if isRedirection resp.status then resp.location else none) with
          | some bs =>
            match headerValueToStr bs with
            | some loc =>
              (c, { st with target := loc, rem := rem', k := st.k + 1, reqs := st.reqs ++ [req] })
            | none =>
              (c,
                { st with
                  reqs := st.reqs ++ [req]
                  outcome := some (.err (.Url redirectUrlErrMsg)) })
          | none =>
            if isSuccess resp.status then
              (c, { st with reqs := st.reqs ++ [req], outcome := some (.ok resp) })
            else
              (c,
                { st with
                  reqs := st.reqs ++ [req]
                  outcome := some (.err (.RequestFailure resp.status)) })
      else (c, { st with outcome := some (.panic panicMsg) })

/-- Run one call alone for `n` steps. -/
def soloRun (c : HttpTransportClient) (net : Net) (body : Chars) :
    Nat → CallState → CallState
  | 0, st => st
  | n + 1, st => soloRun c net body n (loopIter c net body st).2

/-- One scheduling step of two concurrent calls sharing one client value:
`pick` selects which call advances by one loop iteration. -/
def schedStep (net1 : Net) (b1 : Chars) (net2 : Net) (b2 : Chars)
    (g : HttpTransportClient × CallState × CallState) (pick : Bool) :
    HttpTransportClient × CallState × CallState :=
  if pick then
    ((loopIter g.1 net1 b1 g.2.1).1, (loopIter g.1 net1 b1 g.2.1).2, g.2.2)
  else
    ((loopIter g.1 net2 b2 g.2.2).1, g.2.1, (loopIter g.1 net2 b2 g.2.2).2)

/-- Interleaved execution of two concurrent calls under an arbitrary
schedule. -/
def runSched (net1 : Net) (b1 : Chars) (net2 : Net) (b2 : Chars) :
    HttpTransportClient × CallState × CallState → List Bool →
      HttpTransportClient × CallState × CallState
  | g, [] => g
  | g, p :: ps => runSched net1 b1 net2 b2 (schedStep net1 b1 net2 b2 g p) ps

/-! Concrete inputs used by the role theorems below. -/

def cfgBoth : Cfg := ⟨true, true, true⟩

def c1c : HttpTransportClient :=
  ⟨"http://x/".data, .Http, 1000, 1000, 1000, cachedHeaders [], false⟩

def net1 : Net := fun _ => .ok ⟨302, some (bytesOf "http://x/"), .bytes []⟩

def c2c : HttpTransportClient :=
  ⟨"http://x/".data, .Http, 1000, 1000, 1000, cachedHeaders [], false⟩

def resp2 : Response := ⟨301, some (bytesOf "http://y/"), .bytes []⟩

def net2 : Net := fun k => if k = 0 then .ok resp2 else .ok ⟨200, none, .bytes []⟩

def c3c : HttpTransportClient :=
  ⟨"http://localhost:9933/".data, .Http, 80, 50, 99, cachedHeaders [], false⟩

def net3 : Net := fun _ => .ok ⟨200, none, .bytes []⟩

def c4c : HttpTransportClient :=
  ⟨"http://localhost/".data, .Http, 100, 100, 100, cachedHeaders [], false⟩

def net4 : Net := fun _ => .ok ⟨302, some [], .bytes []⟩

def c5c : HttpTransportClient :=
  ⟨"https://host/a".data, .Https .Native, 1000, 1000, 1000, cachedHeaders [], true⟩

def net5 : Net := fun k =>
  if k = 0 then .ok ⟨307, some (bytesOf "https://host/b"), .bytes []⟩
  else .ok ⟨200, none, .bytes []⟩

def c6c : HttpTransportClient :=
  ⟨"http://x/".data, .Http, 1000, 1000, 1000, cachedHeaders [], false⟩

def resp6 : Response := ⟨302, none, .bytes []⟩

def net6 : Net := fun _ => .ok resp6

def c7c : HttpTransportClient :=
  ⟨"http://localhost/my".data, .Http, 80, 80, 80, cachedHeaders [], false⟩

def c8c : HttpTransportClient :=
  ⟨"http://x/".data, .Http, 1000, 1, 1000, cachedHeaders [], false⟩

def net8 : Net := fun _ => .ok ⟨200, none, .bytes [65, 65]⟩

def c10c : HttpTransportClient :=
  ⟨"http://x/".data, .Http, 10, 10, 10, cachedHeaders [(ctName, "text/plain".data)], false⟩

/-- C3: a send call whose body byte length exceeds `max_request_size` fails
with `RequestTooLarge` before any pipeline interaction: the transcript of
issued requests is empty, for `inner_send` and for both public entry
points. -/
theorem oversized_request_fails_fast (c : HttpTransportClient) (net : Net) (body : Chars)
    (h : utf8Len body > c.maxRequestSize) :
    inner_send c net body = (.err .RequestTooLarge, []) ∧
      send c net body = (.err .RequestTooLarge, []) ∧
      send_and_read_body c net body = (.err .RequestTooLarge, []) := by
  have hi : inner_send c net body = (.err .RequestTooLarge, []) := by
    unfold inner_send
    rw [if_pos h]
  refine ⟨hi, ?_, ?_⟩ <;> simp [send, send_and_read_body, hi]

theorem oversized_request_fails_fast_witness :
    utf8Len (List.replicate 81 'a') > c3c.maxRequestSize ∧
      inner_send c3c net3 (List.replicate 81 'a') = (.err .RequestTooLarge, []) :=
  ⟨by decide, (oversized_request_fails_fast c3c net3 (List.replicate 81 'a') (by decide)).1⟩

/-- C4: a failing-input evaluation.  On a well-formed client a redirection
response whose `Location` header value is empty (valid header text, but not
a valid request URI) makes the next iteration's request builder fail, so
the `expect` in `inner_send` panics instead of surfacing one of the seven
error kinds. -/
theorem redirect_to_invalid_uri_panics :
    new cfgBoth 100 "http://localhost/".data 100 .Native 100 [] false = .ok c4c ∧
      inner_send c4c net4 "x".data =
        (.panic panicMsg, [⟨"http://localhost/".data, c4c.headers, "x".data⟩]) := by
  constructor
  · decide
  · decide

/-- C8 counterexample: with `max_response_size = 1`, a success response
carrying a 2-byte body makes `send` return plain success -- the body is
never read, so the response-size limit is not enforced, contradicting the
claim that the too-large failure still occurs. -/
theorem send_skips_response_size_check_cex :
    c8c.maxResponseSize = 1 ∧ net8 0 = .ok ⟨200, none, .bytes [65, 65]⟩ ∧
      send c8c net8 "x".data = (.ok (), [⟨"http://x/".data, c8c.headers, "x".data⟩]) := by
  refine ⟨rfl, rfl, ?_⟩
  decide

/-- C8 (amended): `send` discards the response without reading the body,
so it succeeds even when the body exceeds `max_response_size`; on the same
exchange `send_and_read_body` fails with the too-large error. -/
theorem send_discards_body_without_size_check (c : HttpTransportClient) (net : Net)
    (body : Chars) (r : Response) (l : List Nat)
    (hok : (inner_send c net body).1 = .ok r) (hb : r.body = .bytes l)
    (hgt : l.length > c.maxResponseSize) :
    (send c net body).1 = .ok () ∧
      (send_and_read_body c net body).1 = .err .RequestTooLarge := by
  constructor
  · simp [send, hok]
  · simp [send_and_read_body, hok, read_body, hb, hgt, Error.fromGeneric]

theorem send_discards_body_without_size_check_witness :
    (send c8c net8 "y".data).1 = .ok () ∧
      (send_and_read_body c8c net8 "y".data).1 = .err .RequestTooLarge :=
  send_discards_body_without_size_check c8c net8 "y".data ⟨200, none, .bytes [65, 65]⟩
    [65, 65] (by decide) rfl (by decide)

/-- C6: an attempt whose response is neither a followable redirect (no 3xx
status with a `Location` header) nor a success terminates the loop at once
with `RequestFailure` carrying that status code, after exactly the one
request of this attempt. -/
theorem non_followable_response_fails (c : HttpTransportClient) (net : Net) (body : Chars)
    (fuel k : Nat) (t : Chars) (r : Response)
    (ht : uriValid (downgrade c.httpOnly t) = true)
    (hnet : net k = .ok r)
    (hnf : isRedirection r.status = false ∨ r.location = none)
    (hns : isSuccess r.status = false) :
    sendLoop c net body (fuel + 1) t k =
      (.err (.RequestFailure r.status), [⟨downgrade c.httpOnly t, c.headers, body⟩]) := by
  have hcase : (if isRedirection r.status then r.location else none) = none := by
    rcases hnf with h | h
    · simp [h]
    · simp [h]
  simp [sendLoop, ht, hnet, hcase, hns]

theorem non_followable_response_fails_witness :
    sendLoop c6c net6 "m".data 32 "http://x/".data 0 =
      (.err (.RequestFailure 302),
        [⟨downgrade c6c.httpOnly "http://x/".data, c6c.headers, "m".data⟩]) :=
  non_followable_response_fails c6c net6 "m".data 31 0 "http://x/".data resp6
    (by decide) rfl (Or.inr rfl) (by decide)

/-- C2: when an attempt's response has a 3xx status and a `Location`
header, the cursor target of the next attempt is the header's decoded
value verbatim (the loop recurses on exactly that string, with no
resolution against the previous target and no re-validation), and when the
header bytes are not valid header text the call fails with the `Url`
error. -/
theorem redirect_location_verbatim (c : HttpTransportClient) (net : Net) (body : Chars)
    (fuel k : Nat) (t : Chars) (r : Response) (bs : List Nat)
    (ht : uriValid (downgrade c.httpOnly t) = true)
    (hnet : net k = .ok r) (hst : isRedirection r.status = true)
    (hloc : r.location = some bs) :
    (∀ s, headerValueToStr bs = some s →
        sendLoop c net body (fuel + 1) t k =
          ((sendLoop c net body fuel s (k + 1)).1,
            ⟨downgrade c.httpOnly t, c.headers, body⟩ ::
              (sendLoop c net body fuel s (k + 1)).2)) ∧
    (headerValueToStr bs = none →
        sendLoop c net body (fuel + 1) t k =
          (.err (.Url redirectUrlErrMsg),
            [⟨downgrade c.httpOnly t, c.headers, body⟩])) := by
  constructor
  · intro s hs
    simp [sendLoop, ht, hnet, hst, hloc, hs]
  · intro hs
    simp [sendLoop, ht, hnet, hst, hloc, hs]

theorem redirect_location_verbatim_witness :
    sendLoop c2c net2 "b".data 5 "http://x/".data 0 =
      ((sendLoop c2c net2 "b".data 4 "http://y/".data 1).1,
        ⟨downgrade c2c.httpOnly "http://x/".data, c2c.headers, "b".data⟩ ::
          (sendLoop c2c net2 "b".data 4 "http://y/".data 1).2) :=
  (redirect_location_verbatim c2c net2 "b".data 4 0 "http://x/".data resp2
      (bytesOf "http://y/") (by decide) rfl (by decide) rfl).1 "http://y/".data (by decide)

theorem stripHttps_append (rest : Chars) :
    stripHttps ("https://".data ++ rest) = some rest := by
  unfold stripHttps
  rw [if_pos, List.drop_left]
  rw [List.isPrefixOf_iff_prefix]
  exact List.prefix_append _ _

theorem downgrade_true_append (rest : Chars) :
    downgrade true ("https://".data ++ rest) = "http://".data ++ rest := by
  unfold downgrade
  rw [stripHttps_append rest]
  rfl

theorem downgrade_true_not_https (t : Chars) :
    "https://".data.isPrefixOf (downgrade true t) = false := by
  unfold downgrade
  simp only [if_true]
  cases hstrip : stripHttps t with
  | none =>
    show "https://".data.isPrefixOf t = false
    cases hb : "https://".data.isPrefixOf t with
    | false => rfl
    | true => simp [stripHttps, hb] at hstrip
  | some s => simp [List.isPrefixOf]

/-- Every request issued by the send loop carries the client's cached
header set, a fresh copy of the body, and a target produced by the
downgrade rewrite of some cursor value. -/
theorem sendLoop_transcript_shape (c : HttpTransportClient) (net : Net) (body : Chars) :
    ∀ (fuel k : Nat) (t : Chars), ∀ req ∈ (sendLoop c net body fuel t k).2,
      req.headers = c.headers ∧ req.body = body ∧
        ∃ t0, req.target = downgrade c.httpOnly t0 := by
  intro fuel
  induction fuel with
  | zero => intro k t req h; simp [sendLoop] at h
  | succ n ih =>
    intro k t req h
    by_cases hu : uriValid (downgrade c.httpOnly t)
    · cases hnet : net k with
      | error e =>
        simp [sendLoop, hu, hnet] at h
        exact ⟨by simp [h], by simp [h], t, by simp [h]⟩
      | ok resp =>
        cases hred : (if isRedirection resp.status then resp.location else none) with
        | some bs =>
          cases hstr : headerValueToStr bs with
          | some loc =>
            simp [sendLoop, hu, hnet, hred, hstr] at h
            rcases h with h | h
            · exact ⟨by simp [h], by simp [h], t, by simp [h]⟩
            · exact ih (k + 1) loc req h
          | none =>
            simp [sendLoop, hu, hnet, hred, hstr] at h
            exact ⟨by simp [h], by simp [h], t, by simp [h]⟩
        | none =>
          by_cases hsu : isSuccess resp.status
          · simp [sendLoop, hu, hnet, hred, hsu] at h
            exact ⟨by simp [h], by simp [h], t, by simp [h]⟩
          · simp [sendLoop, hu, hnet, hred, hsu] at h
            exact ⟨by simp [h], by simp [h], t, by simp [h]⟩
    · simp [sendLoop, hu] at h

/-- C5: the force-downgrade rewrite replaces an `https://` prefix of the
cursor target by `http://` before the request of every attempt is built
(preserving the rest of the URL), so with `http_only` set no issued request
targets an `https://` URL; in particular the target `https://host/a`
redirected to `https://host/b` yields exactly the two attempts
`http://host/a` and `http://host/b`. -/
theorem http_only_downgrades_every_attempt :
    (∀ rest : Chars, downgrade true ("https://".data ++ rest) = "http://".data ++ rest) ∧
    (∀ (c : HttpTransportClient) (net : Net) (body : Chars), c.httpOnly = true →
        ∀ req ∈ (inner_send c net body).2,
          "https://".data.isPrefixOf req.target = false) ∧
    (inner_send c5c net5 "m".data).2.map Req.target =
      ["http://host/a".data, "http://host/b".data] := by
  refine ⟨downgrade_true_append, ?_, by decide⟩
  intro c net body hho req hmem
  unfold inner_send at hmem
  by_cases hsz : utf8Len body > c.maxRequestSize
  · rw [if_pos hsz] at hmem
    simp at hmem
  · rw [if_neg hsz] at hmem
    obtain ⟨-, -, t0, htgt⟩ := sendLoop_transcript_shape c net body 32 0 c.target req hmem
    rw [htgt, hho]
    exact downgrade_true_not_https t0

theorem http_only_downgrades_every_attempt_witness :
    "https://".data.isPrefixOf
        (⟨"http://host/a".data, c5c.headers, "m".data⟩ : Req).target = false :=
  http_only_downgrades_every_attempt.2.1 c5c net5 "m".data rfl
    ⟨"http://host/a".data, c5c.headers, "m".data⟩ (by decide)

theorem sendLoop_length_le (c : HttpTransportClient) (net : Net) (body : Chars) :
    ∀ (fuel k : Nat) (t : Chars), (sendLoop c net body fuel t k).2.length ≤ fuel := by
  intro fuel
  induction fuel with
  | zero => intro k t; simp [sendLoop]
  | succ n ih =>
    intro k t
    by_cases hu : uriValid (downgrade c.httpOnly t)
    · cases hnet : net k with
      | error e => simp [sendLoop, hu, hnet]
      | ok resp =>
        cases hred : (if isRedirection resp.status then resp.location else none) with
        | some bs =>
          cases hstr : headerValueToStr bs with
          | some loc =>
            have hle := ih (k + 1) loc
            simp only [sendLoop]
            simp [hu, hnet, hred, hstr]
            omega
          | none => simp [sendLoop, hu, hnet, hred, hstr]
        | none =>
          by_cases hsu : isSuccess resp.status
          · simp [sendLoop, hu, hnet, hred, hsu]
          · simp [sendLoop, hu, hnet, hred, hsu]
    · simp [sendLoop, hu]

/-- When every pipeline exchange up to the remaining budget is a
followable redirect with a usable location, the loop spends its whole
budget and ends with `TooManyRedirects`. -/
theorem sendLoop_all_redirect (c : HttpTransportClient) (net : Net) (body : Chars) :
    ∀ (fuel k : Nat) (t : Chars),
      uriValid (downgrade c.httpOnly t) = true →
      (∀ j, j < fuel → redirectValid c.httpOnly (net (k + j)) = true) →
      (sendLoop c net body fuel t k).1 = .err .TooManyRedirects ∧
        (sendLoop c net body fuel t k).2.length = fuel := by
  intro fuel
  induction fuel with
  | zero => intro k t _ _; simp [sendLoop]
  | succ n ih =>
    intro k t ht hr
    have h0 := hr 0 (Nat.succ_pos n)
    rw [Nat.add_zero] at h0
    cases hnet : net k with
    | error e => rw [hnet] at h0; simp [redirectValid] at h0
    | ok r =>
      rw [hnet] at h0
      simp only [redirectValid, Bool.and_eq_true] at h0
      obtain ⟨hred, hrest⟩ := h0
      cases hloc : r.location with
      | none => simp [hloc] at hrest
      | some bs =>
        simp only [hloc] at hrest
        cases hstr : headerValueToStr bs with
        | none => simp [hstr] at hrest
        | some s =>
          simp only [hstr] at hrest
          have hr' : ∀ j, j < n → redirectValid c.httpOnly (net (k + 1 + j)) = true := by
            intro j hj
            have hj1 := hr (j + 1) (by omega)
            have e : k + (j + 1) = k + 1 + j := by omega
            rwa [e] at hj1
          obtain ⟨ih1, ih2⟩ := ih (k + 1) s hrest hr'
          have heq : sendLoop c net body (n + 1) t k =
              ((sendLoop c net body n s (k + 1)).1,
                ⟨downgrade c.httpOnly t, c.headers, body⟩ ::
                  (sendLoop c net body n s (k + 1)).2) := by
            simp [sendLoop, ht, hnet, hred, hloc, hstr]
          rw [heq]
          exact ⟨ih1, by simp [ih2]⟩

/-- C1: every send call issues at most 32 requests, and when every
exchange answers with a followable redirect carrying a valid location,
exactly 32 requests are issued and the call fails with
`TooManyRedirects`. -/
theorem inner_send_redirect_bound :
    (∀ (c : HttpTransportClient) (net : Net) (body : Chars),
        (inner_send c net body).2.length ≤ 32) ∧
    ∀ (c : HttpTransportClient) (net : Net) (body : Chars),
      utf8Len body ≤ c.maxRequestSize →
      uriValid (downgrade c.httpOnly c.target) = true →
      (∀ j, j < 32 → redirectValid c.httpOnly (net j) = true) →
      (inner_send c net body).1 = .err .TooManyRedirects ∧
        (inner_send c net body).2.length = 32 := by
  constructor
  · intro c net body
    unfold inner_send
    by_cases hsz : utf8Len body > c.maxRequestSize
    · rw [if_pos hsz]; simp
    · rw [if_neg hsz]
      exact sendLoop_length_le c net body 32 0 c.target
  · intro c net body hb ht hr
    have hb' : ¬ (utf8Len body > c.maxRequestSize) := by omega
    have hr0 : ∀ j, j < 32 → redirectValid c.httpOnly (net (0 + j)) = true := by
      intro j hj
      simpa using hr j hj
    obtain ⟨h1, h2⟩ := sendLoop_all_redirect c net body 32 0 c.target ht hr0
    unfold inner_send
    rw [if_neg hb']
    exact ⟨h1, h2⟩

theorem inner_send_redirect_bound_witness :
    (inner_send c1c net1 "b".data).1 = .err .TooManyRedirects ∧
      (inner_send c1c net1 "b".data).2.length = 32 :=
  inner_send_redirect_bound.2 c1c net1 "b".data (by decide) (by decide) (by decide)

theorem selectBackend_ok_scheme (cfg : Cfg) (scheme : Chars) (cs : CertificateStore)
    (b : HttpBackend) (h : selectBackend cfg scheme cs = .ok b) :
    scheme = "http".data ∨ (cfg.tls = true ∧ scheme = "https".data) := by
  unfold selectBackend at h
  by_cases h1 : scheme = "http".data
  · exact Or.inl h1
  · rw [if_neg h1] at h
    by_cases h2 : scheme = "https".data
    · rw [if_pos h2] at h
      cases htls : cfg.tls with
      | false => rw [htls] at h; simp at h
      | true => exact Or.inr ⟨rfl, h2⟩
    · rw [if_neg h2] at h
      simp at h

/-- Backend selection fails with the `Url` error exactly when the scheme is
neither `http` nor (when TLS is compiled in) `https`. -/
theorem selectBackend_url_iff (cfg : Cfg) (scheme : Chars) (cs : CertificateStore) :
    (∃ m, selectBackend cfg scheme cs = .error (.Url m)) ↔
      ¬(scheme = "http".data ∨ (cfg.tls = true ∧ scheme = "https".data)) := by
  unfold selectBackend
  by_cases h1 : scheme = "http".data
  · rw [if_pos h1]
    constructor
    · rintro ⟨m, hm⟩
      cases hm
    · intro hneg
      exact absurd (Or.inl h1) hneg
  · rw [if_neg h1]
    by_cases h2 : scheme = "https".data
    · rw [if_pos h2]
      cases htls : cfg.tls with
      | false =>
        constructor
        · intro _
          rintro (ho1 | ⟨ht2, _⟩)
          · exact h1 ho1
          · exact Bool.false_ne_true ht2
        · intro _
          simp
      | true =>
        constructor
        · rintro ⟨m, hm⟩
          cases cs with
          | Native =>
            cases hn : cfg.nativeTls with
            | false => simp [hn] at hm
            | true => simp [hn] at hm
          | WebPki =>
            cases hw : cfg.webpkiTls with
            | false => simp [hw] at hm
            | true => simp [hw] at hm
        · intro hneg
          exact absurd (Or.inr ⟨rfl, h2⟩) hneg
    · rw [if_neg h2]
      constructor
      · intro _
        rintro (ho1 | ⟨_, ho2⟩)
        · exact h1 ho1
        · exact h2 ho2
      · intro _
        exact ⟨schemeErrMsg cfg, rfl⟩

/-- Shape of a successfully constructed client: the parsed target had a
host and an accepted scheme, and every stored field comes from the
constructor arguments, with the fragment-stripped canonical target. -/
theorem new_ok_shape (cfg : Cfg) (mrs : Nat) (tgt : Chars) (mrr : Nat)
    (cs : CertificateStore) (mll : Nat) (hs : List HPair) (ho : Bool)
    (c : HttpTransportClient) (h : new cfg mrs tgt mrr cs mll hs ho = .ok c) :
    ∃ u b, Url.parse tgt = some u ∧ u.host ≠ none ∧
      selectBackend cfg u.scheme cs = .ok b ∧
      c = { target := Url.asStr { u with fragment := none }, backend := b,
            maxRequestSize := mrs, maxResponseSize := mrr, maxLogLength := mll,
            headers := cachedHeaders hs, httpOnly := ho } := by
  cases hp : Url.parse tgt with
  | none => simp [new, hp] at h
  | some u =>
    by_cases hh : u.host = none
    · simp [new, hp, hh] at h
    · simp only [new, hp] at h
      rw [if_neg hh] at h
      cases hsel : selectBackend cfg u.scheme cs with
      | error e => simp [hsel] at h
      | ok b =>
        simp [hsel] at h
        exact ⟨u, b, rfl, hh, hsel, h.symm⟩

/-- C7: construction fails with the `Url` error exactly when the target
fails to parse, has no host, or has a scheme other than `http` (or other
than `http`/`https` when TLS support is compiled in); on success the
stored canonical target is the fragment-stripped serialization of the
parsed URL; and the spec's two normalization examples hold (default port
dropped, path defaulting to `/`). -/
theorem construction_url_validation :
    (∀ (cfg : Cfg) (mrs : Nat) (tgt : Chars) (mrr : Nat) (cs : CertificateStore)
        (mll : Nat) (hs : List HPair) (ho : Bool),
        (∃ m, new cfg mrs tgt mrr cs mll hs ho = .error (.Url m)) ↔
          (Url.parse tgt = none ∨
            ∃ u, Url.parse tgt = some u ∧
              (u.host = none ∨
                ¬(u.scheme = "http".data ∨ (cfg.tls = true ∧ u.scheme = "https".data))))) ∧
    (∀ (cfg : Cfg) (mrs : Nat) (tgt : Chars) (mrr : Nat) (cs : CertificateStore)
        (mll : Nat) (hs : List HPair) (ho : Bool) (c : HttpTransportClient),
        new cfg mrs tgt mrr cs mll hs ho = .ok c →
          ∃ u, Url.parse tgt = some u ∧ u.host ≠ none ∧
            (u.scheme = "http".data ∨ (cfg.tls = true ∧ u.scheme = "https".data)) ∧
            c.target = Url.asStr { u with fragment := none }) ∧
    (new cfgBoth 80 "http://127.0.0.1:80".data 80 .Native 80 [] false).map
        HttpTransportClient.target = .ok "http://127.0.0.1/".data ∧
    (new cfgBoth 80 "http://localhost:9999".data 80 .Native 80 [] false).map
        HttpTransportClient.target = .ok "http://localhost:9999/".data := by
  refine ⟨?_, ?_, by decide, by decide⟩
  · intro cfg mrs tgt mrr cs mll hs ho
    cases hp : Url.parse tgt with
    | none =>
      constructor
      · intro _
        exact Or.inl rfl
      · intro _
        exact ⟨"Invalid URL".data, by simp [new, hp]⟩
    | some u =>
      by_cases hh : u.host = none
      · constructor
        · intro _
          exact Or.inr ⟨u, rfl, Or.inl hh⟩
        · intro _
          exact ⟨"Invalid host".data, by simp [new, hp, hh]⟩
      · constructor
        · rintro ⟨m, hm⟩
          simp only [new, hp] at hm
          rw [if_neg hh] at hm
          cases hsel : selectBackend cfg u.scheme cs with
          | error e =>
            simp [hsel] at hm
            have hu : selectBackend cfg u.scheme cs = .error (.Url m) := by
              rw [hsel, hm]
            exact Or.inr ⟨u, rfl,
              Or.inr ((selectBackend_url_iff cfg u.scheme cs).mp ⟨m, hu⟩)⟩
          | ok b => simp [hsel] at hm
        · intro hr
          rcases hr with hpn | ⟨u', hu', hbad⟩
          · exact absurd hpn (Option.some_ne_none u)
          · injection hu' with he
            subst he
            rcases hbad with hbn | hbs
            · exact absurd hbn hh
            · obtain ⟨m, hm⟩ := (selectBackend_url_iff cfg u.scheme cs).mpr hbs
              exact ⟨m, by simp [new, hp, hh, hm]⟩
  · intro cfg mrs tgt mrr cs mll hs ho c hnew
    obtain ⟨u, b, hp, hh, hsel, hc⟩ := new_ok_shape cfg mrs tgt mrr cs mll hs ho c hnew
    exact ⟨u, hp, hh, selectBackend_ok_scheme cfg u.scheme cs b hsel, by rw [hc]⟩

theorem construction_url_validation_witness :
    ∃ u, Url.parse "http://localhost/my".data = some u ∧ u.host ≠ none ∧
      (u.scheme = "http".data ∨ (cfgBoth.tls = true ∧ u.scheme = "https".data)) ∧
      c7c.target = Url.asStr { u with fragment := none } :=
  construction_url_validation.2.1 cfgBoth 80 "http://localhost/my".data 80 .Native 80 []
    false c7c (by decide)

theorem hmInsert_keys (k v : Chars) :
    ∀ m : List HPair, (hmInsert m k v).map Prod.fst =
      if k ∈ m.map Prod.fst then m.map Prod.fst else m.map Prod.fst ++ [k] := by
  intro m
  induction m with
  | nil => simp [hmInsert]
  | cons p rest ih =>
    obtain ⟨k', v'⟩ := p
    by_cases hk : k' = k
    · subst hk
      simp [hmInsert]
    · have hne : ¬(k = k') := fun h => hk h.symm
      simp only [hmInsert, if_neg hk, List.map_cons, ih]
      by_cases hm : k ∈ rest.map Prod.fst
      · rw [if_pos hm, if_pos (by simp [List.mem_cons, hm])]
      · rw [if_neg hm, if_neg (by simp [List.mem_cons, hne, hm]), List.cons_append]

theorem hmInsert_lookup (k v : Chars) :
    ∀ m : List HPair, hmLookup (hmInsert m k v) k = some v := by
  intro m
  induction m with
  | nil => simp [hmInsert, hmLookup]
  | cons p rest ih =>
    obtain ⟨k', v'⟩ := p
    by_cases hk : k' = k
    · simp [hmInsert, hmLookup, hk]
    · simp [hmInsert, hmLookup, hk, ih]

/-- C10: the header-map model inserts a new key at the end of the wire
order and overwrites the value of an existing key in place; the cached set
of a constructed client is built once from the two defaults followed by
the caller's headers; with no caller headers it is exactly the two
defaults; and every request issued by any send call carries exactly the
client's cached header set. -/
theorem headers_built_once_and_cloned :
    (∀ (m : List HPair) (k v : Chars),
        (hmInsert m k v).map Prod.fst =
          if k ∈ m.map Prod.fst then m.map Prod.fst else m.map Prod.fst ++ [k]) ∧
    (∀ (m : List HPair) (k v : Chars), hmLookup (hmInsert m k v) k = some v) ∧
    (∀ (cfg : Cfg) (mrs : Nat) (tgt : Chars) (mrr : Nat) (cs : CertificateStore)
        (mll : Nat) (hs : List HPair) (ho : Bool) (c : HttpTransportClient),
        new cfg mrs tgt mrr cs mll hs ho = .ok c → c.headers = cachedHeaders hs) ∧
    (cachedHeaders [] = [(ctName, jsonVal), (acceptName, jsonVal)]) ∧
    (∀ (c : HttpTransportClient) (net : Net) (body : Chars),
        ∀ req ∈ (inner_send c net body).2, req.headers = c.headers) := by
  refine ⟨fun m k v => hmInsert_keys k v m, fun m k v => hmInsert_lookup k v m, ?_,
    by decide, ?_⟩
  · intro cfg mrs tgt mrr cs mll hs ho c hnew
    obtain ⟨u, b, -, -, -, hc⟩ := new_ok_shape cfg mrs tgt mrr cs mll hs ho c hnew
    rw [hc]
  · intro c net body req hmem
    unfold inner_send at hmem
    by_cases hsz : utf8Len body > c.maxRequestSize
    · rw [if_pos hsz] at hmem
      simp at hmem
    · rw [if_neg hsz] at hmem
      exact (sendLoop_transcript_shape c net body 32 0 c.target req hmem).1

theorem headers_built_once_and_cloned_witness :
    c10c.headers = cachedHeaders [(ctName, "text/plain".data)] :=
  headers_built_once_and_cloned.2.2.1 cfgBoth 10 "http://x/".data 10 .Native 10
    [(ctName, "text/plain".data)] false c10c (by decide)

theorem loopIter_fst (c : HttpTransportClient) (net : Net) (body : Chars)
    (st : CallState) : (loopIter c net body st).1 = c := by
  unfold loopIter
  repeat' split
  all_goals try dsimp only
  repeat' split
  all_goals rfl

theorem soloRun_frozen (c : HttpTransportClient) (net : Net) (body : Chars) :
    ∀ (n : Nat) (st : CallState) (o : SendResult Response), st.outcome = some o →
      soloRun c net body n st = st := by
  intro n
  induction n with
  | zero => intro st o _; rfl
  | succ m ih =>
    intro st o h
    have hiter : (loopIter c net body st).2 = st := by
      unfold loopIter
      rw [h]
    show soloRun c net body m (loopIter c net body st).2 = st
    rw [hiter]
    exact ih st o h

/-- The step machine refines the send loop: run alone from a fresh cursor
with budget `fuel`, after `fuel + 1` steps the outcome and transcript are
exactly those of `sendLoop`. -/
theorem soloRun_sendLoop (c : HttpTransportClient) (net : Net) (body : Chars) :
    ∀ (fuel k : Nat) (t : Chars) (acc : List Req),
      (soloRun c net body (fuel + 1) ⟨t, fuel, k, acc, none⟩).outcome =
          some (sendLoop c net body fuel t k).1 ∧
        (soloRun c net body (fuel + 1) ⟨t, fuel, k, acc, none⟩).reqs =
          acc ++ (sendLoop c net body fuel t k).2 := by
  intro fuel
  induction fuel with
  | zero =>
    intro k t acc
    refine ⟨rfl, ?_⟩
    show acc = acc ++ ([] : List Req)
    exact (List.append_nil acc).symm
  | succ n ih =>
    intro k t acc
    have hstep : ∀ st : CallState, soloRun c net body (n + 1 + 1) st =
        soloRun c net body (n + 1) (loopIter c net body st).2 := fun _ => rfl
    by_cases hu : uriValid (downgrade c.httpOnly t)
    · cases hnet : net k with
      | error e =>
        have hiter : (loopIter c net body ⟨t, n + 1, k, acc, none⟩).2 =
            ⟨t, n + 1, k, acc ++ [⟨downgrade c.httpOnly t, c.headers, body⟩],
              some (.err e)⟩ := by
          simp [loopIter, hu, hnet]
        have hsl : sendLoop c net body (n + 1) t k =
            (.err e, [⟨downgrade c.httpOnly t, c.headers, body⟩]) := by
          simp [sendLoop, hu, hnet]
        rw [hstep, hiter, soloRun_frozen c net body (n + 1) _ _ rfl, hsl]
        exact ⟨rfl, rfl⟩
      | ok resp =>
        cases hred : (if isRedirection resp.status then resp.location else none) with
        | some bs =>
          cases hstr : headerValueToStr bs with
          | some loc =>
            have hiter : (loopIter c net body ⟨t, n + 1, k, acc, none⟩).2 =
                ⟨loc, n, k + 1, acc ++ [⟨downgrade c.httpOnly t, c.headers, body⟩],
                  none⟩ := by
              simp [loopIter, hu, hnet, hred, hstr]
            have hsl : sendLoop c net body (n + 1) t k =
                ((sendLoop c net body n loc (k + 1)).1,
                  ⟨downgrade c.httpOnly t, c.headers, body⟩ ::
                    (sendLoop c net body n loc (k + 1)).2) := by
              simp [sendLoop, hu, hnet, hred, hstr]
            obtain ⟨ih1, ih2⟩ :=
              ih (k + 1) loc (acc ++ [⟨downgrade c.httpOnly t, c.headers, body⟩])
            rw [hstep, hiter, hsl]
            refine ⟨ih1, ?_⟩
            rw [ih2]
            simp
          | none =>
            have hiter : (loopIter c net body ⟨t, n + 1, k, acc, none⟩).2 =
                ⟨t, n + 1, k, acc ++ [⟨downgrade c.httpOnly t, c.headers, body⟩],
                  some (.err (.Url redirectUrlErrMsg))⟩ := by
              simp [loopIter, hu, hnet, hred, hstr]
            have hsl : sendLoop c net body (n + 1) t k =
                (.err (.Url redirectUrlErrMsg),
                  [⟨downgrade c.httpOnly t, c.headers, body⟩]) := by
              simp [sendLoop, hu, hnet, hred, hstr]
            rw [hstep, hiter, soloRun_frozen c net body (n + 1) _ _ rfl, hsl]
            exact ⟨rfl, rfl⟩
        | none =>
          by_cases hsu : isSuccess resp.status
          · have hiter : (loopIter c net body ⟨t, n + 1, k, acc, none⟩).2 =
                ⟨t, n + 1, k, acc ++ [⟨downgrade c.httpOnly t, c.headers, body⟩],
                  some (.ok resp)⟩ := by
              simp [loopIter, hu, hnet, hred, hsu]
            have hsl : sendLoop c net body (n + 1) t k =
                (.ok resp, [⟨downgrade c.httpOnly t, c.headers, body⟩]) := by
              simp [sendLoop, hu, hnet, hred, hsu]
            rw [hstep, hiter, soloRun_frozen c net body (n + 1) _ _ rfl, hsl]
            exact ⟨rfl, rfl⟩
          · have hiter : (loopIter c net body ⟨t, n + 1, k, acc, none⟩).2 =
                ⟨t, n + 1, k, acc ++ [⟨downgrade c.httpOnly t, c.headers, body⟩],
                  some (.err (.RequestFailure resp.status))⟩ := by
              simp [loopIter, hu, hnet, hred, hsu]
            have hsl : sendLoop c net body (n + 1) t k =
                (.err (.RequestFailure resp.status),
                  [⟨downgrade c.httpOnly t, c.headers, body⟩]) := by
              simp [sendLoop, hu, hnet, hred, hsu]
            rw [hstep, hiter, soloRun_frozen c net body (n + 1) _ _ rfl, hsl]
            exact ⟨rfl, rfl⟩
    · have hiter : (loopIter c net body ⟨t, n + 1, k, acc, none⟩).2 =
          ⟨t, n + 1, k, acc, some (.panic panicMsg)⟩ := by
        simp [loopIter, hu]
      have hsl : sendLoop c net body (n + 1) t k = (.panic panicMsg, []) := by
        simp [sendLoop, hu]
      rw [hstep, hiter, soloRun_frozen c net body (n + 1) _ _ rfl, hsl]
      exact ⟨rfl, (List.append_nil acc).symm⟩

/-- Any interleaving of two concurrent calls on the same client value
leaves the client unchanged and gives each call exactly the state it would
reach running alone for its own number of scheduled steps. -/
theorem runSched_indep (c : HttpTransportClient) (net1 : Net) (b1 : Chars)
    (net2 : Net) (b2 : Chars) :
    ∀ (sched : List Bool) (s1 s2 : CallState),
      runSched net1 b1 net2 b2 (c, s1, s2) sched =
        (c, soloRun c net1 b1 (sched.count true) s1,
          soloRun c net2 b2 (sched.count false) s2) := by
  intro sched
  induction sched with
  | nil => intro s1 s2; rfl
  | cons p ps ih =>
    intro s1 s2
    cases p with
    | true =>
      have h1 : runSched net1 b1 net2 b2 (c, s1, s2) (true :: ps) =
          runSched net1 b1 net2 b2 (schedStep net1 b1 net2 b2 (c, s1, s2) true) ps := rfl
      have h2 : schedStep net1 b1 net2 b2 (c, s1, s2) true =
          (c, (loopIter c net1 b1 s1).2, s2) := by
        simp [schedStep, loopIter_fst]
      have hc1 : (true :: ps).count true = ps.count true + 1 := by simp
      have hc2 : (true :: ps).count false = ps.count false := by simp
      rw [h1, h2, ih, hc1, hc2]
      rfl
    | false =>
      have h1 : runSched net1 b1 net2 b2 (c, s1, s2) (false :: ps) =
          runSched net1 b1 net2 b2 (schedStep net1 b1 net2 b2 (c, s1, s2) false) ps := rfl
      have h2 : schedStep net1 b1 net2 b2 (c, s1, s2) false =
          (c, s1, (loopIter c net2 b2 s2).2) := by
        simp [schedStep, loopIter_fst]
      have hc1 : (false :: ps).count true = ps.count true := by simp
      have hc2 : (false :: ps).count false = ps.count false + 1 := by simp
      rw [h1, h2, ih, hc1, hc2]
      rfl

/-- C9: all mutable send state is call-local.  One loop step never changes
any client field; under every interleaving of two concurrent calls on the
same client each call reaches exactly the state of its solo run, so
neither observes nor affects the other's redirect cursor or target; and
the solo machine computes precisely the outcome and transcript of
`sendLoop`. -/
theorem send_state_call_local :
    (∀ (c : HttpTransportClient) (net : Net) (body : Chars) (st : CallState),
        (loopIter c net body st).1 = c) ∧
    (∀ (c : HttpTransportClient) (net1 : Net) (b1 : Chars) (net2 : Net) (b2 : Chars)
        (sched : List Bool) (s1 s2 : CallState),
        runSched net1 b1 net2 b2 (c, s1, s2) sched =
          (c, soloRun c net1 b1 (sched.count true) s1,
            soloRun c net2 b2 (sched.count false) s2)) ∧
    (∀ (c : HttpTransportClient) (net : Net) (body : Chars) (fuel k : Nat) (t : Chars)
        (acc : List Req),
        (soloRun c net body (fuel + 1) ⟨t, fuel, k, acc, none⟩).outcome =
            some (sendLoop c net body fuel t k).1 ∧
          (soloRun c net body (fuel + 1) ⟨t, fuel, k, acc, none⟩).reqs =
            acc ++ (sendLoop c net body fuel t k).2) :=
  ⟨loopIter_fst, fun c n1 b1 n2 b2 => runSched_indep c n1 b1 n2 b2,
    fun c net body => soloRun_sendLoop c net body⟩

end Transport
